import Mathlib

/-!
# Verification of the R MCP bridge translation layer

Shallow embedding of the request-translation and dispatch layer of the
`test_r_mcp` repository (`r_bridge.py`, `hello_r_bridge.py`,
`old/r_bridge_refactored.py`), together with theorems settling the frozen
claims about it.

Python strings are modelled by Lean `String`, Python lists by Lean lists,
and the numeric elements of the `List[float]` tool arguments by integers
(the bridge only ever renders them with `str`, modelled below by
`pyFloatStr`, which reproduces CPython's rendering of integral floats in
the non-scientific range).  Stateful pieces (the health probe, the HTTP
client, the `json` module) are modelled as fields of an explicit `World`
value that the dispatch function consumes.
-/

namespace RMcp

/-! ## Decimal rendering of numbers (model of Python `str` on numbers) -/

/-- The character for a single decimal digit. -/
def digitChar (d : Nat) : Char := Char.ofNat (48 + d)

/-- Fuel-driven worker producing the decimal digit characters of a natural
number, most significant first. -/
def natDigsF : Nat → Nat → List Char
  | 0, _ => []
  | f + 1, n =>
    if n < 10 then [digitChar n]
    else natDigsF f (n / 10) ++ [digitChar (n % 10)]

/-- The decimal digit characters of a natural number, most significant
first (the digit part of CPython `str` on numbers). -/
def natDigs (n : Nat) : List Char := natDigsF (n + 1) n

/-- Model of CPython `str` on a Python `int`: optional sign then decimal
digits. -/
def pyIntStr (i : Int) : String :=
  (if i < 0 then "-" else "") ++ ⟨natDigs i.natAbs⟩

/-- Model of CPython `str` on a float of integral value in the
non-scientific range (as produced by the `List[float]` tool arguments):
optional sign, decimal digits, then the suffix `.0`. -/
def pyFloatStr (i : Int) : String := pyIntStr i ++ ".0"

/-- Model of Python `sep.join`, by its standard recursion. -/
def joinSep (sep : String) : List String → String
  | [] => ""
  | [a] => a
  | a :: b :: t => a ++ sep ++ joinSep sep (b :: t)

/-- The text `', '.join(map(str, values))` that the bridge interpolates
into every vector literal. -/
def joinFloats (values : List Int) : String :=
  joinSep ", " (values.map pyFloatStr)

/-- `format_r_vector` from `old/r_bridge_refactored.py` (lines 86–88):
`f"c({', '.join(map(str, values))})"`.  The same text is produced inline
by the f-strings of `r_correlation` and `r_t_test` in `r_bridge.py`. -/
def format_r_vector (values : List Int) : String :=
  "c(" ++ joinFloats values ++ ")"

/-! ## Substring search over character lists -/

/-- Whether `pat` occurs as a contiguous run inside the second list. -/
def listContains (pat : List Char) : List Char → Bool
  | [] => pat.isEmpty
  | c :: t => pat.isPrefixOf (c :: t) || listContains pat t

/-- The number of positions of the second list at which `pat` starts. -/
def countOccs (pat : List Char) : List Char → Nat
  | [] => if pat.isEmpty then 1 else 0
  | c :: t => (if pat.isPrefixOf (c :: t) then 1 else 0) + countOccs pat t

/-- Whether the string `pat` occurs as a contiguous substring of `s`. -/
def strContainsStr (pat s : String) : Bool := listContains pat.data s.data

/-- The number of occurrences of `pat` inside `s`. -/
def countOccsStr (pat s : String) : Nat := countOccs pat.data s.data

/-! ## A reference evaluator for the produced vector literals

A minimal parser for the sublanguage of R numeric vector literals the
bridge emits (`c()`, `c(1.0, -2.0)`, …), used to state that the emitted
text evaluates back to the ordered input values. -/

/-- Greedily consume decimal digits, extending the accumulator. -/
def parseNatAcc (acc : Nat) : List Char → Nat × List Char
  | [] => (acc, [])
  | c :: cs =>
    if c.isDigit then parseNatAcc (acc * 10 + (c.toNat - 48)) cs
    else (acc, c :: cs)

/-- Parse an unsigned numeral of the form `<digits>.0`. -/
def parsePosNum (l : List Char) : Option (Nat × List Char) :=
  match l with
  | [] => Option.none
  | c :: _ =>
    if c.isDigit then
      match parseNatAcc 0 l with
      | (n, '.' :: '0' :: r) => some (n, r)
      | _ => Option.none
    else Option.none

/-- Parse a possibly signed numeral of the form `-?<digits>.0`. -/
def parseNum (l : List Char) : Option (Int × List Char) :=
  if l.head? = some '-' then (parsePosNum l.tail).map fun p => (-(p.1 : Int), p.2)
  else (parsePosNum l).map fun p => ((p.1 : Int), p.2)

/-- Parse the comma-separated elements of a vector literal up to the
closing parenthesis; the fuel bounds the number of elements. -/
def parseElems : Nat → List Char → Option (List Int)
  | 0, _ => Option.none
  | fuel + 1, l =>
    match parseNum l with
    | Option.none => Option.none
    | some (n, rest) =>
      match rest with
      | [')'] => some [n]
      | ',' :: ' ' :: rest2 => (parseElems fuel rest2).map (n :: ·)
      | _ => Option.none

/-- Evaluate a vector literal of the emitted sublanguage back to its
ordered numeric values. -/
def parseRVector (s : String) : Option (List Int) :=
  match s.data with
  | 'c' :: '(' :: rest =>
    if rest = [')'] then some [] else parseElems rest.length rest
  | _ => Option.none

/-! ## The code formatter (`build_r_code` and friends) -/

/-- Model of CPython `str` on a `bool` (`"True"` / `"False"`). -/
def pyStrBool (b : Bool) : String := if b then "True" else "False"

/-- ASCII uppercase of one character (the only case `str.upper` meets
here). -/
def asciiUpper (c : Char) : Char :=
  if 97 ≤ c.toNat ∧ c.toNat ≤ 122 then Char.ofNat (c.toNat - 32) else c

/-- Model of Python `str.upper` on ASCII text. -/
def pyUpper (s : String) : String := ⟨s.data.map asciiUpper⟩

/-- `str(value).upper()` on a boolean, as used by `build_r_code`
(`old/r_bridge_refactored.py` line 98) and by the `paired` interpolation
of `r_t_test` in `r_bridge.py` (line 278). -/
def pyBoolUpperTok (b : Bool) : String := pyUpper (pyStrBool b)

/-- The typed values the code-formatting layer receives: numeric scalars,
numeric sequences, booleans, strings, and Python `None` (an unsupported
shape for code generation). -/
inductive PyVal where
  | num (n : Int)
  | list (xs : List Int)
  | bool (b : Bool)
  | str (s : String)
  | pynone
  deriving DecidableEq, Repr

/-- The text substituted for a `{key}` placeholder by `build_r_code`
(`old/r_bridge_refactored.py` lines 91–102): the conversion loop turns
lists into `format_r_vector` text, booleans into `str(value).upper()`,
and value-strings into quote-wrapped text (keys `method`, `alternative`,
`formula` stay bare); every other value is left untouched and rendered by
`str.format` with `str`, so a scalar becomes its decimal text and `None`
becomes `"None"` — silently, with no error. -/
def convertArg (key : String) (v : PyVal) : String :=
  match v with
  | .list xs => format_r_vector xs
  | .bool b => pyBoolUpperTok b
  | .str s =>
    if key = "method" || key = "alternative" || key = "formula" then s
    else "\"" ++ s ++ "\""
  | .num n => pyIntStr n
  | .pynone => "None"

/-- First binding of a keyword argument name. -/
def findArg (name : String) : List (String × PyVal) → Option PyVal
  | [] => Option.none
  | (k, v) :: t => if k = name then some v else findArg name t

/-- Scan a format template into literal characters and placeholder names.
The state is `none` outside a placeholder and `some acc` (the reversed
accumulated name) inside one.  This models Python `str.format` for the
simple `{name}` placeholders that are the only brace syntax appearing in
the source's templates. -/
def scanTemplate : Option (List Char) → List Char → Except String (List (Sum Char String))
  | Option.none, [] => .ok []
  | some _, [] => .error "ValueError: unterminated placeholder"
  | Option.none, '{' :: rest => scanTemplate (some []) rest
  | Option.none, c :: rest => (scanTemplate Option.none rest).map (Sum.inl c :: ·)
  | some acc, '}' :: rest =>
    (scanTemplate Option.none rest).map (Sum.inr (⟨acc.reverse⟩ : String) :: ·)
  | some acc, c :: rest => scanTemplate (some (c :: acc)) rest

/-- Render scanned segments, substituting `convertArg` text for each
placeholder; a missing key is Python's generic `KeyError`. -/
def renderSegs (args : List (String × PyVal)) : List (Sum Char String) → Except String (List Char)
  | [] => .ok []
  | Sum.inl c :: rest => (renderSegs args rest).map (c :: ·)
  | Sum.inr name :: rest =>
    match findArg name args with
    | some v => (renderSegs args rest).map ((convertArg name v).data ++ ·)
    | Option.none => .error ("KeyError: " ++ name)

/-- `build_r_code` from `old/r_bridge_refactored.py` (lines 91–102): the
conversion loop followed by `template.format(**kwargs)`.  A failure value
is the generic Python exception text (`KeyError`/`ValueError`); the
source defines no dedicated translation-error type. -/
def build_r_code (template : String) (args : List (String × PyVal)) : Except String String :=
  (scanTemplate Option.none template.data).bind fun segs =>
    (renderSegs args segs).map fun cs => (⟨cs⟩ : String)

/-! ## The generated-code tools -/

/-- The code built by the f-string of `r_correlation` in `r_bridge.py`
(lines 242–246): the literal chunks between the three interpolations,
concatenated in order. -/
def r_correlation_code (x y : List Int) (method : String) : String :=
  "\n    x <- c(" ++ (joinFloats x ++
    (")\n    y <- c(" ++ (joinFloats y ++
      (")\n    cor.test(x, y, method = \"" ++ (method ++ "\")\n    ")))))

/-- The code built by the f-strings of `r_t_test` in `r_bridge.py`
(lines 269–279): the one-sample template when `y is None`, the two-sample
template otherwise; each is the literal chunks between the interpolations,
concatenated in order. -/
def r_t_test_code (x : List Int) (y : Option (List Int)) (paired : Bool)
    (alternative : String) : String :=
  match y with
  | Option.none =>
    "\n        x <- c(" ++ (joinFloats x ++
      (")\n        t.test(x, alternative = \"" ++ (alternative ++ "\")\n        ")))
  | some ys =>
    "\n        x <- c(" ++ (joinFloats x ++
      (")\n        y <- c(" ++ (joinFloats ys ++
        (")\n        t.test(x, y, paired = " ++ (pyBoolUpperTok paired ++
          (", alternative = \"" ++ (alternative ++ "\")\n        ")))))))

/-- Model of the Python truthiness coercion `y or x` on an optional list:
`None` and the empty list are falsy (`old/r_bridge_refactored.py`
line 407). -/
def pyOrList (y : Option (List Int)) (x : List Int) : List Int :=
  match y with
  | Option.none => x
  | some ys => if ys.isEmpty then x else ys

/-- The histogram template of `r_plot` (`old/r_bridge_refactored.py`
lines 371–379). -/
def histTemplate : String :=
  "x <- {x}\nhist_data <- hist(x, plot = FALSE)\nlist(\n    breaks = hist_data$breaks,\n    counts = hist_data$counts,\n    density = hist_data$density,\n    mids = hist_data$mids,\n    summary = summary(x)\n)"

/-- The boxplot template of `r_plot` (`old/r_bridge_refactored.py`
lines 384–392). -/
def boxTemplate : String :=
  "x <- {x}\nbox_stats <- boxplot.stats(x)\nlist(\n    stats = box_stats$stats,\n    n = box_stats$n,\n    conf = box_stats$conf,\n    out = box_stats$out,\n    summary = summary(x)\n)"

/-- The scatter/line template of `r_plot` (`old/r_bridge_refactored.py`
lines 398–406). -/
def scatterTemplate : String :=
  "x <- {x}\ny <- {y}\nlist(\n    x_range = range(x),\n    y_range = range(y),\n    x_summary = summary(x),\n    y_summary = summary(y),\n    correlation = cor(x, y)\n)"

/-- The code built by `r_plot` (`old/r_bridge_refactored.py`
lines 369–408): histogram template when `plot_type == "histogram" and
y is None`, boxplot template for `plot_type == "boxplot"`, otherwise the
scatter/line template with `y=y or x`. -/
def r_plot_code (x : List Int) (y : Option (List Int)) (plot_type : String) :
    Except String String :=
  if plot_type = "histogram" && y.isNone then
    build_r_code histTemplate [("x", .list x)]
  else if plot_type = "boxplot" then
    build_r_code boxTemplate [("x", .list x)]
  else
    build_r_code scatterTemplate [("x", .list x), ("y", .list (pyOrList y x))]

/-! ## JSON values, the outbound world, and the dispatcher -/

/-- JSON-compatible values (request payloads and response bodies). -/
inductive JsonVal where
  | null
  | bool (b : Bool)
  | num (n : Int)
  | str (s : String)
  | arr (xs : List JsonVal)
  | obj (fields : List (String × JsonVal))

/-- The outcome of `http_client.post` as `call_r_api` observes it: a
transport-level exception, or a response carrying its status code, its
raw body text, and the outcome of `response.json()` (which either yields
a value or raises). -/
inductive PostResult where
  | transportError (msg : String)
  | response (status : Nat) (text : String) (body : Except String JsonVal)

/-- The only exception that can escape `call_r_api`. -/
inductive PyExn where
  | rbridgeError (msg : String)

/-- Normal return or a propagated exception. -/
inductive DispatchResult where
  | ret (v : JsonVal)
  | raised (e : PyExn)

/-- Whether a dispatch outcome is a normal return (as opposed to an
exception reaching the caller). -/
def returnsValue : DispatchResult → Bool
  | .ret _ => true
  | .raised _ => false

/-- Whether a JSON value is a mapping. -/
def isObj : JsonVal → Bool
  | .obj _ => true
  | _ => false

/-- The external collaborators of one dispatch: the result of the health
probe (`check_api_health`, which itself never raises), the backend reached
through `http_client.post`, and the `json.loads` parser used for
double-encoded bodies. -/
structure World where
  healthUp : Bool
  post : String → List (String × JsonVal) → PostResult
  jsonLoads : String → Except String JsonVal

/-- The message of the `RBridgeError` raised by `ensure_api_running`
(`r_bridge.py` lines 39–44). -/
def startHint : String :=
  "R API server is not running. Please start it with: Rscript base_r_api.R"

/-- `httpx` `response.is_success`: `raise_for_status` raises exactly for
non-2xx statuses. -/
def is2xx (status : Nat) : Bool := 200 ≤ status && status ≤ 299

/-- `call_r_api` from `r_bridge.py` (lines 47–81).  `ensure_api_running`
runs before the `try:` block, so its `RBridgeError` propagates; inside the
block, `raise_for_status` failures become `{"success": False, "error":
"API error: " + text}`, any other exception becomes `{"success": False,
"error": str(e)}`, a dict body is returned as-is, a string body is parsed
a second time with `json.loads` and that result returned as-is, and every
other body shape is wrapped as `{"data": data}`. -/
def call_r_api (w : World) (endpoint : String) (payload : List (String × JsonVal)) :
    DispatchResult :=
  if !w.healthUp then .raised (.rbridgeError startHint)
  else
    match w.post endpoint payload with
    | .transportError msg =>
      .ret (.obj [("success", .bool false), ("error", .str msg)])
    | .response status text body =>
      if !is2xx status then
        .ret (.obj [("success", .bool false), ("error", .str ("API error: " ++ text))])
      else
        match body with
        | .error msg => .ret (.obj [("success", .bool false), ("error", .str msg)])
        | .ok (.obj fields) => .ret (.obj fields)
        | .ok (.str s) =>
          match w.jsonLoads s with
          | .ok v => .ret v
          | .error msg => .ret (.obj [("success", .bool false), ("error", .str msg)])
        | .ok other => .ret (.obj [("data", other)])

/-! ## The request builder -/

/-- One tool invocation with its typed arguments (`r_bridge.py`
lines 106–281). -/
inductive ToolCall where
  | execute (code : String)
  | callFn (func : String) (args : Option JsonVal)
  | stats (data : List Int) (operation : String)
  | lmSimple (x y : List Int)
  | lmFormula (formula : String) (data : List (String × List Int))
  | dataframe (data : List (String × List Int)) (operation : String)
  | correlation (x y : List Int) (method : String)
  | tTest (x : List Int) (y : Option (List Int)) (paired : Bool) (alternative : String)

/-- A `name -> list` mapping as a JSON object of arrays. -/
def dataObj (d : List (String × List Int)) : JsonVal :=
  .obj (d.map fun kv => (kv.1, .arr (kv.2.map .num)))

/-- The `(endpoint, payload)` pair each tool of `r_bridge.py` hands to
`call_r_api`: `r_execute` (line 117), `r_call` (lines 135–139), `r_stats`
(lines 157–160), `r_lm_simple` (line 178), `r_lm_formula` (lines 196–199),
`r_dataframe` (lines 217–220), `r_correlation` (lines 242–247), `r_t_test`
(lines 269–281). -/
def requestBuilderBuild : ToolCall → String × List (String × JsonVal)
  | .execute code => ("/api/execute", [("code", .str code)])
  | .callFn func args =>
    ("/api/call",
      ("func", .str func) ::
        (match args with
         | Option.none => []
         | some a => [("args", a)]))
  | .stats data operation =>
    ("/api/stats", [("data", .arr (data.map .num)), ("operation", .str operation)])
  | .lmSimple x y =>
    ("/api/lm", [("x", .arr (x.map .num)), ("y", .arr (y.map .num))])
  | .lmFormula formula data =>
    ("/api/lm", [("formula", .str formula), ("data", dataObj data)])
  | .dataframe data operation =>
    ("/api/dataframe", [("data", dataObj data), ("operation", .str operation)])
  | .correlation x y method =>
    ("/api/execute", [("code", .str (r_correlation_code x y method))])
  | .tTest x y paired alternative =>
    ("/api/execute", [("code", .str (r_t_test_code x y paired alternative))])

/-- Ambient process state a Python function could in principle consult: a
wall clock and a random seed. -/
structure Env where
  clock : Nat
  randSeed : Nat

/-- The request builder as run in an ambient environment.  The source of
every builder path reads no clock, no randomness, and no mutable state, so
the environment is not consulted. -/
def buildAt (_env : Env) (t : ToolCall) : String × List (String × JsonVal) :=
  requestBuilderBuild t

/-! ## Concrete worlds used by witnesses and counterexamples -/

/-- A world whose health probe reports the backend down. -/
def worldDown : World :=
  { healthUp := false
    post := fun _ _ => .transportError "unused"
    jsonLoads := fun _ => .error "unused" }

/-- A healthy world whose backend answers 200 with the double-encoded
body `"[1, 2]"`; `json.loads` on the inner text yields the array
`[1, 2]`. -/
def worldDouble : World :=
  { healthUp := true
    post := fun _ _ => .response 200 "\"[1, 2]\"" (.ok (.str "[1, 2]"))
    jsonLoads := fun s =>
      if s = "[1, 2]" then .ok (.arr [.num 1, .num 2]) else .error "nope" }

/-- A healthy world whose backend answers 200 with the mapping
`{"result": 3}`. -/
def worldResult3 : World :=
  { healthUp := true
    post := fun _ _ => .response 200 "\x7b\"result\": 3\x7d" (.ok (.obj [("result", .num 3)]))
    jsonLoads := fun _ => .error "unused" }

/-! ## Helper lemmas: decimal digits -/

theorem natDigsF_irrel : ∀ (f₁ n : Nat), n < f₁ → ∀ (f₂ : Nat), n < f₂ →
    natDigsF f₁ n = natDigsF f₂ n := by
  intro f₁
  induction f₁ with
  | zero => intro n h; omega
  | succ f ih =>
    intro n _ f₂ h₂
    match f₂, h₂ with
    | g + 1, _ =>
      by_cases h10 : n < 10
      · simp [natDigsF, h10]
      · simp only [natDigsF, if_neg h10]
        rw [ih (n / 10) (by omega) g (by omega)]

theorem natDigs_small {n : Nat} (h : n < 10) : natDigs n = [digitChar n] := by
  simp [natDigs, natDigsF, h]

theorem natDigs_step {n : Nat} (h : 10 ≤ n) :
    natDigs n = natDigs (n / 10) ++ [digitChar (n % 10)] := by
  have h1 : natDigs n = natDigsF n (n / 10) ++ [digitChar (n % 10)] := by
    simp [natDigs, natDigsF, Nat.not_lt.2 h]
  rw [h1, natDigsF_irrel n (n / 10) (by omega) (n / 10 + 1) (by omega)]
  rfl

theorem digitChar_isDigit {d : Nat} (h : d < 10) : (digitChar d).isDigit = true := by
  interval_cases d <;> decide

theorem digitChar_toNat {d : Nat} (h : d < 10) : (digitChar d).toNat = 48 + d := by
  interval_cases d <;> decide

theorem natDigs_mem {n : Nat} {c : Char} (hc : c ∈ natDigs n) : c.isDigit = true := by
  induction n using Nat.strong_induction_on with
  | _ n ih =>
    by_cases h : n < 10
    · rw [natDigs_small h] at hc
      simp at hc
      subst hc
      exact digitChar_isDigit h
    · rw [natDigs_step (by omega)] at hc
      rcases List.mem_append.1 hc with h1 | h1
      · exact ih (n / 10) (by omega) h1
      · simp at h1
        subst h1
        exact digitChar_isDigit (by omega)

theorem natDigs_ne_nil (n : Nat) : natDigs n ≠ [] := by
  by_cases h : n < 10
  · rw [natDigs_small h]; simp
  · rw [natDigs_step (by omega)]; simp

/-! ## Helper lemmas: parsing the numerals back -/

theorem parseNatAcc_stop {acc : Nat} {l : List Char}
    (h : ∀ c, l.head? = some c → c.isDigit = false) : parseNatAcc acc l = (acc, l) := by
  match l with
  | [] => rfl
  | c :: cs => simp [parseNatAcc, h c rfl]

/-- The digit-accumulation step. -/
def digStep (a : Nat) (c : Char) : Nat := a * 10 + (c.toNat - 48)

theorem parseNatAcc_append (ds : List Char) : ∀ (acc : Nat) (rest : List Char),
    (∀ c ∈ ds, c.isDigit = true) →
    (∀ c, rest.head? = some c → c.isDigit = false) →
    parseNatAcc acc (ds ++ rest) = (ds.foldl digStep acc, rest) := by
  induction ds with
  | nil => intro acc rest _ hrest; simpa using parseNatAcc_stop hrest
  | cons d ds ih =>
    intro acc rest hds hrest
    simp only [List.cons_append, parseNatAcc, hds d (by simp), if_true, List.foldl_cons]
    exact ih _ rest (fun c hc => hds c (by simp [hc])) hrest

theorem natDigs_foldl (n : Nat) : ∀ acc : Nat,
    (natDigs n).foldl digStep acc = acc * 10 ^ (natDigs n).length + n := by
  induction n using Nat.strong_induction_on with
  | _ n ih =>
    intro acc
    by_cases h : n < 10
    · rw [natDigs_small h]
      simp [digStep, digitChar_toNat h]
    · rw [natDigs_step (by omega)]
      rw [List.foldl_append, ih (n / 10) (by omega) acc]
      simp [digStep, digitChar_toNat (show n % 10 < 10 by omega), pow_succ]
      ring_nf
      omega

theorem parseNatAcc_natDigs (n : Nat) (rest : List Char)
    (hrest : ∀ c, rest.head? = some c → c.isDigit = false) :
    parseNatAcc 0 (natDigs n ++ rest) = (n, rest) := by
  rw [parseNatAcc_append (natDigs n) 0 rest (fun c hc => natDigs_mem hc) hrest,
    natDigs_foldl n 0]
  simp

theorem pyFloat_data (i : Int) :
    (pyFloatStr i).data = (if i < 0 then ['-'] else []) ++ natDigs i.natAbs ++ ['.', '0'] := by
  by_cases h : i < 0 <;>
    simp [pyFloatStr, pyIntStr, h, String.data_append]

theorem isDigit_ne_of (c : Char) (d : Char) (hd : d.isDigit = false)
    (hc : c.isDigit = true) : c ≠ d := by
  intro h; rw [h, hd] at hc; exact Bool.false_ne_true hc

theorem parsePosNum_natDigs (n : Nat) (rest : List Char) :
    parsePosNum (natDigs n ++ ('.' :: '0' :: rest)) = some (n, rest) := by
  obtain ⟨d, ds, hds⟩ : ∃ d ds, natDigs n = d :: ds := by
    cases h : natDigs n with
    | nil => exact absurd h (natDigs_ne_nil n)
    | cons d ds => exact ⟨d, ds, rfl⟩
  have hd : d.isDigit = true := natDigs_mem (c := d) (by rw [hds]; simp)
  have hacc : parseNatAcc 0 (natDigs n ++ ('.' :: '0' :: rest)) = (n, '.' :: '0' :: rest) :=
    parseNatAcc_natDigs n _ (fun c hc => by simp at hc; subst hc; decide)
  rw [hds] at hacc ⊢
  simp only [List.cons_append, parsePosNum, hd, if_true]
  rw [show (d :: (ds ++ '.' :: '0' :: rest)) = ((d :: ds) ++ ('.' :: '0' :: rest)) by simp]
  rw [hacc]
  rfl

theorem parseNum_pyFloat (i : Int) (rest : List Char) :
    parseNum ((pyFloatStr i).data ++ rest) = some (i, rest) := by
  rw [pyFloat_data]
  by_cases h : i < 0
  · have hlist : (((if i < 0 then ['-'] else []) ++ natDigs i.natAbs ++ ['.', '0']) ++ rest)
        = '-' :: (natDigs i.natAbs ++ ('.' :: '0' :: rest)) := by simp [h]
    rw [hlist]
    rw [show parseNum ('-' :: (natDigs i.natAbs ++ ('.' :: '0' :: rest))) =
        (parsePosNum (natDigs i.natAbs ++ ('.' :: '0' :: rest))).map
          (fun p => (-(p.1 : Int), p.2)) from by simp [parseNum]]
    rw [parsePosNum_natDigs]
    simp only [Option.map_some', Option.some.injEq, Prod.mk.injEq]
    exact ⟨by omega, trivial⟩
  · have hlist : (((if i < 0 then ['-'] else []) ++ natDigs i.natAbs ++ ['.', '0']) ++ rest)
        = natDigs i.natAbs ++ ('.' :: '0' :: rest) := by simp [h]
    rw [hlist]
    obtain ⟨d, ds, hds⟩ : ∃ d ds, natDigs i.natAbs = d :: ds := by
      cases hh : natDigs i.natAbs with
      | nil => exact absurd hh (natDigs_ne_nil _)
      | cons d ds => exact ⟨d, ds, rfl⟩
    have hd : d.isDigit = true := natDigs_mem (c := d) (by rw [hds]; simp)
    have hne : d ≠ '-' := isDigit_ne_of d '-' (by decide) hd
    have hhead : ¬ (natDigs i.natAbs ++ ('.' :: '0' :: rest)).head? = some '-' := by
      rw [hds]
      simpa using hne
    rw [parseNum, if_neg hhead]
    rw [parsePosNum_natDigs]
    simp only [Option.map_some', Option.some.injEq, Prod.mk.injEq]
    exact ⟨by omega, trivial⟩

/-! ## Helper lemmas: the vector round trip -/

theorem joinFloats_cons_cons (x y : Int) (t : List Int) :
    joinFloats (x :: y :: t) = pyFloatStr x ++ ", " ++ joinFloats (y :: t) := by
  simp [joinFloats, joinSep]

theorem parseElems_round : ∀ (t : List Int) (x : Int) (fuel : Nat), t.length < fuel →
    parseElems fuel ((joinFloats (x :: t)).data ++ [')']) = some (x :: t) := by
  intro t
  induction t with
  | nil =>
    intro x fuel hf
    obtain ⟨f, rfl⟩ : ∃ f, fuel = f + 1 := ⟨fuel - 1, by omega⟩
    have hx : (joinFloats [x]).data ++ [')'] = (pyFloatStr x).data ++ [')'] := by
      simp [joinFloats, joinSep]
    rw [hx]
    simp only [parseElems, parseNum_pyFloat x [')']]
  | cons y t ih =>
    intro x fuel hf
    obtain ⟨f, rfl⟩ : ∃ f, fuel = f + 1 := ⟨fuel - 1, by omega⟩
    have hdata : (joinFloats (x :: y :: t)).data ++ [')'] =
        (pyFloatStr x).data ++ (',' :: ' ' :: ((joinFloats (y :: t)).data ++ [')'])) := by
      rw [joinFloats_cons_cons]
      simp [String.data_append]
    rw [hdata]
    simp only [parseElems, parseNum_pyFloat x (',' :: ' ' :: ((joinFloats (y :: t)).data ++ [')']))]
    rw [ih y f (by simp at hf; omega)]
    rfl

theorem pyFloat_len (i : Int) : 3 ≤ (pyFloatStr i).data.length := by
  rw [pyFloat_data]
  have h1 : 0 < (natDigs i.natAbs).length := List.length_pos.2 (natDigs_ne_nil _)
  by_cases h : i < 0 <;> simp [h] <;> try omega

theorem joinFloats_len : ∀ (t : List Int) (x : Int),
    t.length + 1 ≤ ((joinFloats (x :: t)).data).length := by
  intro t
  induction t with
  | nil =>
    intro x
    have h3 := pyFloat_len x
    have h4 : joinFloats [x] = pyFloatStr x := by simp [joinFloats, joinSep]
    rw [h4]
    simp only [List.length_nil]
    omega
  | cons y t ih =>
    intro x
    rw [joinFloats_cons_cons]
    have h1 := pyFloat_len x
    have h2 := ih y
    rw [String.data_append, String.data_append, List.length_append, List.length_append]
    have hsep : ((", " : String).data).length = 2 := rfl
    simp only [List.length_cons] at h2 ⊢
    omega

theorem parseRVector_format (values : List Int) :
    parseRVector (format_r_vector values) = some values := by
  match values with
  | [] => rfl
  | x :: t =>
    have hdata : (format_r_vector (x :: t)).data =
        'c' :: '(' :: ((joinFloats (x :: t)).data ++ [')']) := by
      simp [format_r_vector, String.data_append]
    rw [parseRVector, hdata]
    have hne : (joinFloats (x :: t)).data ++ [')'] ≠ [')'] := by
      intro hcontra
      have h1 := joinFloats_len t x
      have h2 := congrArg List.length hcontra
      rw [List.length_append] at h2
      simp only [List.length_cons, List.length_nil] at h2
      omega
    simp only [if_neg hne]
    apply parseElems_round
    rw [List.length_append]
    have h3 := joinFloats_len t x
    simp only [List.length_cons, List.length_nil]
    omega

/-! ## Helper lemmas: substring search -/

theorem listContains_of_prefix {pat l : List Char} (h : pat.isPrefixOf l = true) :
    listContains pat l = true := by
  match l with
  | [] =>
    have hp : pat = [] := List.prefix_nil.1 (List.isPrefixOf_iff_prefix.1 h)
    subst hp
    rfl
  | c :: t => simp [listContains, h]

theorem listContains_append_right {pat v : List Char} (u : List Char)
    (h : listContains pat v = true) : listContains pat (u ++ v) = true := by
  induction u with
  | nil => simpa using h
  | cons a u ih => simp [listContains, ih]

theorem listContains_extend_right {pat : List Char} (v : List Char) : ∀ {u : List Char},
    listContains pat u = true → listContains pat (u ++ v) = true := by
  intro u
  induction u with
  | nil =>
    intro h
    have hp : pat = [] := by simpa [listContains, List.isEmpty_iff] using h
    subst hp
    apply listContains_of_prefix
    exact List.isPrefixOf_iff_prefix.2 List.nil_prefix
  | cons a u ih =>
    intro h
    rcases (by simpa [listContains] using h :
        pat <+: (a :: u) ∨ listContains pat u = true) with h1 | h1
    · apply listContains_of_prefix
      exact List.isPrefixOf_iff_prefix.2 (h1.trans (List.prefix_append (a :: u) v))
    · have := ih h1
      simp [listContains, this]

theorem mem_of_listContains {pat : List Char} {c : Char} (hc : c ∈ pat) :
    ∀ {l : List Char}, listContains pat l = true → c ∈ l := by
  intro l
  induction l with
  | nil =>
    intro h
    have hp : pat = [] := by simpa [listContains, List.isEmpty_iff] using h
    subst hp
    simp at hc
  | cons a t ih =>
    intro h
    rcases (by simpa [listContains] using h :
        pat <+: (a :: t) ∨ listContains pat t = true) with h1 | h1
    · exact h1.subset hc
    · exact List.mem_cons_of_mem a (ih h1)

theorem countOccs_le_count (c : Char) (pat : List Char) : ∀ (l : List Char),
    countOccs (c :: pat) l ≤ l.count c := by
  intro l
  induction l with
  | nil => simp [countOccs]
  | cons a t ih =>
    rw [List.count_cons]
    simp only [countOccs]
    have himp : (c :: pat).isPrefixOf (a :: t) = true → (a == c) = true := by
      intro hpre
      simp only [List.isPrefixOf, Bool.and_eq_true] at hpre
      have hh : c = a := by simpa using hpre.1
      simp [hh]
    by_cases hpre : (c :: pat).isPrefixOf (a :: t) = true
    · simp only [if_pos hpre]
      simp [himp hpre]
      omega
    · simp only [if_neg hpre]
      have := ih
      omega

theorem countOccs_pos {pat : List Char} : ∀ {l : List Char},
    listContains pat l = true → 1 ≤ countOccs pat l := by
  intro l
  induction l with
  | nil =>
    intro h
    have hp : pat.isEmpty = true := by simpa [listContains] using h
    simp [countOccs, hp]
  | cons a t ih =>
    intro h
    simp only [countOccs]
    rcases (by simpa [listContains] using h :
        pat <+: (a :: t) ∨ listContains pat t = true) with h1 | h1
    · rw [if_pos (List.isPrefixOf_iff_prefix.2 h1)]; omega
    · have := ih h1; omega

/-! ## Helper lemmas: character classes of the joined numerals -/

/-- The characters that can occur in `', '.join(map(str, xs))`. -/
def isNumChar (c : Char) : Bool :=
  c.isDigit || c = '-' || c = '.' || c = ',' || c = ' '

theorem pyFloat_chars {i : Int} {c : Char} (hc : c ∈ (pyFloatStr i).data) :
    isNumChar c = true := by
  rw [pyFloat_data] at hc
  rcases List.mem_append.1 hc with h1 | h1
  · rcases List.mem_append.1 h1 with h2 | h2
    · by_cases h : i < 0
      · simp [h] at h2
        subst h2
        decide
      · simp [h] at h2
    · simp [isNumChar, natDigs_mem h2]
  · rcases (by simpa using h1 : c = '.' ∨ c = '0') with rfl | rfl <;> decide

theorem joinFloats_chars : ∀ (xs : List Int) {c : Char},
    c ∈ (joinFloats xs).data → isNumChar c = true := by
  intro xs
  induction xs with
  | nil => intro c hc; simp [joinFloats, joinSep] at hc
  | cons x t ih =>
    intro c hc
    cases t with
    | nil =>
      have hx : joinFloats [x] = pyFloatStr x := by simp [joinFloats, joinSep]
      rw [hx] at hc
      exact pyFloat_chars hc
    | cons y t2 =>
      rw [joinFloats_cons_cons, String.data_append, String.data_append] at hc
      rcases List.mem_append.1 hc with h1 | h1
      · rcases List.mem_append.1 h1 with h2 | h2
        · exact pyFloat_chars h2
        · rcases (by simpa using h2 : c = ',' ∨ c = ' ') with rfl | rfl <;> decide
      · exact ih h1

theorem not_mem_joinFloats {ch : Char} (h : isNumChar ch = false) (xs : List Int) :
    ch ∉ (joinFloats xs).data := by
  intro hc
  rw [joinFloats_chars xs hc] at h
  exact absurd h (by simp)

theorem count_joinFloats_zero {ch : Char} (h : isNumChar ch = false) (xs : List Int) :
    ((joinFloats xs).data).count ch = 0 :=
  List.count_eq_zero.2 (not_mem_joinFloats h xs)

/-! ## Dispatcher claims -/

/-- C1 — counterexample to the claim as stated: with the health probe
down, `call_r_api` raises `RBridgeError` instead of returning a
ResultRecord, and with the probe up a double-encoded body whose second
parse is the array `[1, 2]` is returned raw, not as a mapping of either
claimed shape. -/
theorem claim_C1_counterexample :
    returnsValue (call_r_api worldDown "/api/add" []) = false ∧
    call_r_api worldDouble "/api/execute" [("code", .str "x")] =
      .ret (.arr [.num 1, .num 2]) ∧
    isObj (.arr [.num 1, .num 2]) = false :=
  ⟨rfl, rfl, rfl⟩

/-- C1 (amended): whenever the health probe reports up, `call_r_api`
returns exactly one value and never lets an exception propagate, and that
value is a mapping in every case except a 2xx double-encoded body whose
second parse succeeds, where the parsed value is returned as-is whatever
its shape; when the probe is down, an `RBridgeError` propagates to the
caller instead. -/
theorem claim_C1 (w : World) (endpoint : String)
    (payload : List (String × JsonVal)) (h : w.healthUp = true) :
    ∃ v, call_r_api w endpoint payload = .ret v ∧
      (isObj v = true ∨
        ∃ status text s, w.post endpoint payload = .response status text (.ok (.str s)) ∧
          is2xx status = true ∧ w.jsonLoads s = .ok v) := by
  unfold call_r_api
  rw [h]
  simp only [Bool.not_true, Bool.false_eq_true, if_false]
  cases hpost : w.post endpoint payload with
  | transportError msg => exact ⟨_, rfl, Or.inl rfl⟩
  | response status text body =>
    by_cases hst : is2xx status = true
    · simp only [hst, Bool.not_true, Bool.false_eq_true, if_false]
      cases body with
      | error msg => exact ⟨_, rfl, Or.inl rfl⟩
      | ok v =>
        cases v with
        | obj fields => exact ⟨_, rfl, Or.inl rfl⟩
        | str s =>
          dsimp only
          cases hjson : w.jsonLoads s with
          | ok v2 => exact ⟨v2, rfl, Or.inr ⟨status, text, s, rfl, hst, hjson⟩⟩
          | error msg => exact ⟨_, rfl, Or.inl rfl⟩
        | null => exact ⟨_, rfl, Or.inl rfl⟩
        | bool b => exact ⟨_, rfl, Or.inl rfl⟩
        | num n => exact ⟨_, rfl, Or.inl rfl⟩
        | arr xs => exact ⟨_, rfl, Or.inl rfl⟩
    · have hst2 : is2xx status = false := by
        cases hcc : is2xx status
        · rfl
        · exact absurd hcc hst
      simp only [hst2, Bool.not_false, if_true]
      exact ⟨_, rfl, Or.inl rfl⟩

/-- C1 — witness: the amended theorem applied to a concrete healthy
world shows the dispatch returning normally. -/
theorem claim_C1_witness :
    returnsValue (call_r_api worldResult3 "/api/stats" []) = true := by
  obtain ⟨v, hv, _⟩ := claim_C1 worldResult3 "/api/stats" [] rfl
  rw [hv]
  rfl

/-- C2 — counterexample to the claim as stated: with the health probe
down, `call_r_api` returns no record at all — it raises `RBridgeError` —
so in particular it does not return
`{success: false, error: "backend unreachable", hint: ...}`. -/
theorem claim_C2_counterexample :
    call_r_api worldDown "/api/add" [("a", .num 1), ("b", .num 2)] =
      .raised (.rbridgeError startHint) ∧
    returnsValue (call_r_api worldDown "/api/add" [("a", .num 1), ("b", .num 2)]) = false :=
  ⟨rfl, rfl⟩

/-- C2 (amended): for every endpoint and payload, when the health probe
returns false, `call_r_api` raises `RBridgeError` whose message is the
start-command hint text (`"R API server is not running. Please start it
with: Rscript base_r_api.R"`), and it does not attempt the main network
request: the outcome is the same for every possible backend and JSON
parser.  The hint text contains the start command. -/
theorem claim_C2 (endpoint : String) (payload : List (String × JsonVal))
    (post : String → List (String × JsonVal) → PostResult)
    (jsonLoads : String → Except String JsonVal) :
    call_r_api { healthUp := false, post := post, jsonLoads := jsonLoads }
        endpoint payload = .raised (.rbridgeError startHint) ∧
    strContainsStr "Rscript base_r_api.R" startHint = true :=
  ⟨rfl, by decide⟩

/-- C3 — counterexample to the claim as stated: a 2xx double-encoded body
whose second parse yields the non-mapping array `[1, 2]` is returned
raw, not wrapped as `{data: [1, 2]}`. -/
theorem claim_C3_counterexample :
    call_r_api worldDouble "/api/execute" [("code", .str "x")] =
      .ret (.arr [.num 1, .num 2]) ∧
    DispatchResult.ret (JsonVal.arr [.num 1, .num 2]) ≠
      DispatchResult.ret (.obj [("data", .arr [.num 1, .num 2])]) :=
  ⟨rfl, by simp⟩

/-- C3 (amended): for every 2xx response whose body parses to a JSON
string, `call_r_api` attempts a second parse of that string and returns
the second parse's value as-is, whatever its shape (a mapping or not); a
failing second parse is surfaced as `{success: false, error: <message>}`.
The `{data: <value>}` wrapping is applied only to first-parse values that
are neither mappings nor strings. -/
theorem claim_C3 (w : World) (endpoint : String) (payload : List (String × JsonVal))
    (status : Nat) (text s : String) (h : w.healthUp = true)
    (hpost : w.post endpoint payload = .response status text (.ok (.str s)))
    (hst : is2xx status = true) :
    call_r_api w endpoint payload =
      (match w.jsonLoads s with
       | .ok v => .ret v
       | .error msg => .ret (.obj [("success", .bool false), ("error", .str msg)])) := by
  unfold call_r_api
  rw [h, hpost]
  simp only [Bool.not_true, Bool.false_eq_true, if_false, hst]

/-- C3 — witness: the amended theorem applied to the concrete
double-encoded world. -/
theorem claim_C3_witness :
    call_r_api worldDouble "/api/execute" [("code", .str "x")] =
      (match worldDouble.jsonLoads "[1, 2]" with
       | .ok v => .ret v
       | .error msg => .ret (.obj [("success", .bool false), ("error", .str msg)])) :=
  claim_C3 worldDouble "/api/execute" [("code", .str "x")] 200 "\"[1, 2]\"" "[1, 2]"
    rfl rfl rfl

/-- C5: for every 2xx response whose body parses as a JSON mapping,
`call_r_api` returns exactly that mapping — fields passed through
verbatim, nothing added or removed, no `success` field injected. -/
theorem claim_C5 (w : World) (endpoint : String) (payload : List (String × JsonVal))
    (status : Nat) (text : String) (fields : List (String × JsonVal))
    (h : w.healthUp = true)
    (hpost : w.post endpoint payload = .response status text (.ok (.obj fields)))
    (hst : is2xx status = true) :
    call_r_api w endpoint payload = .ret (.obj fields) := by
  unfold call_r_api
  rw [h, hpost]
  simp only [Bool.not_true, Bool.false_eq_true, if_false, hst]

/-- C5 — witness: the backend answers `{"result": 3}` with 200 and the
result is `{"result": 3}` unchanged. -/
theorem claim_C5_witness :
    call_r_api worldResult3 "/api/stats" [] = .ret (.obj [("result", .num 3)]) :=
  claim_C5 worldResult3 "/api/stats" [] 200 "\x7b\"result\": 3\x7d" [("result", .num 3)]
    rfl rfl rfl

/-! ## Formatter claims -/

theorem except_map_isOk {E A B : Type} (f : A → B) (x : Except E A) :
    (x.map f).isOk = x.isOk := by
  cases x <;> rfl

theorem except_map_eq_error {E A B : Type} {f : A → B} {x : Except E A} {msg : E} :
    x.map f = .error msg ↔ x = .error msg := by
  cases x <;> simp [Except.map]

theorem findArg_isSome_of_keys : ∀ (args1 args2 : List (String × PyVal)),
    args1.map Prod.fst = args2.map Prod.fst → ∀ name : String,
    (findArg name args1).isSome = (findArg name args2).isSome := by
  intro args1
  induction args1 with
  | nil =>
    intro args2 h name
    have h2 : args2 = [] := List.map_eq_nil_iff.1 h.symm
    subst h2
    rfl
  | cons kv t ih =>
    intro args2 h name
    cases args2 with
    | nil => simp at h
    | cons kv2 t2 =>
      obtain ⟨k, v⟩ := kv
      obtain ⟨k2, v2⟩ := kv2
      simp only [List.map_cons, List.cons.injEq] at h
      obtain ⟨hk, ht⟩ := h
      subst hk
      simp only [findArg]
      by_cases hkn : k = name
      · simp [hkn]
      · simp [hkn, ih t2 ht name]

theorem renderSegs_isOk_keys (args1 args2 : List (String × PyVal))
    (hkeys : args1.map Prod.fst = args2.map Prod.fst) :
    ∀ segs, (renderSegs args1 segs).isOk = (renderSegs args2 segs).isOk := by
  intro segs
  induction segs with
  | nil => rfl
  | cons seg rest ih =>
    cases seg with
    | inl c => simp only [renderSegs, except_map_isOk, ih]
    | inr name =>
      have hs := findArg_isSome_of_keys args1 args2 hkeys name
      cases h1 : findArg name args1 with
      | some v1 =>
        cases h2 : findArg name args2 with
        | some v2 => simp only [renderSegs, h1, h2, except_map_isOk, ih]
        | none => rw [h1, h2] at hs; simp at hs
      | none =>
        cases h2 : findArg name args2 with
        | some v2 => rw [h1, h2] at hs; simp at hs
        | none =>
          have e1 : renderSegs args1 (Sum.inr name :: rest) = .error ("KeyError: " ++ name) := by
            simp only [renderSegs, h1]
          have e2 : renderSegs args2 (Sum.inr name :: rest) = .error ("KeyError: " ++ name) := by
            simp only [renderSegs, h2]
          rw [e1, e2]

theorem renderSegs_error (args : List (String × PyVal)) :
    ∀ (segs : List (Sum Char String)) (msg : String), renderSegs args segs = .error msg →
    ∃ name, msg = "KeyError: " ++ name ∧ findArg name args = Option.none := by
  intro segs
  induction segs with
  | nil => intro msg h; simp [renderSegs] at h
  | cons seg rest ih =>
    intro msg h
    cases seg with
    | inl c =>
      simp only [renderSegs] at h
      rw [except_map_eq_error] at h
      exact ih msg h
    | inr name =>
      cases hf : findArg name args with
      | some v =>
        simp only [renderSegs, hf] at h
        rw [except_map_eq_error] at h
        exact ih msg h
      | none =>
        simp only [renderSegs, hf] at h
        injection h with h2
        exact ⟨name, h2.symm, hf⟩

theorem scanTemplate_error : ∀ (l : List Char) (mode : Option (List Char)) (msg : String),
    scanTemplate mode l = .error msg → msg = "ValueError: unterminated placeholder" := by
  intro l
  induction l with
  | nil =>
    intro mode msg h
    cases mode with
    | none => simp [scanTemplate] at h
    | some acc =>
      simp only [scanTemplate, Except.error.injEq] at h
      exact h.symm
  | cons c rest ih =>
    intro mode msg h
    rw [scanTemplate.eq_def] at h
    split at h
    · exact absurd h (by simp)
    · injection h with h2
      exact h2.symm
    · next _ _ r2 heq =>
        injection heq with h1 h2
        subst h2
        exact ih _ _ h
    · next _ _ c2 r2 hne heq =>
        injection heq with h1 h2
        subst h2
        rw [except_map_eq_error] at h
        exact ih _ _ h
    · next _ _ acc r2 heq =>
        injection heq with h1 h2
        subst h2
        rw [except_map_eq_error] at h
        exact ih _ _ h
    · next _ _ acc c2 r2 hne heq =>
        injection heq with h1 h2
        subst h1
        subst h2
        exact ih _ _ h

/-- C4 — counterexample to the claim as stated: the Python `None` value
is not a supported code-generation shape, yet `build_r_code` does not
fail on it — it silently renders the text `None` into the generated
code.  No `TranslationError` type exists anywhere in the source. -/
theorem claim_C4_counterexample :
    build_r_code "v <- {d}" [("d", PyVal.pynone)] = Except.ok "v <- None" ∧
    (build_r_code "v <- {d}" [("d", PyVal.pynone)]).isOk = true :=
  ⟨rfl, rfl⟩

/-- C4 (amended): the code-formatting functions are pure and never signal
a dedicated translation error — no such error type exists.  Whether
`build_r_code` succeeds is independent of the argument values (it depends
only on the template and the argument names), so no value shape,
supported or not, can make it fail; its only failures are a missing
placeholder key (Python's generic `KeyError`) or a malformed template
(`ValueError`), both indistinguishable from any other Python exception at
the dispatch boundary. -/
theorem claim_C4 (template : String) (args1 args2 : List (String × PyVal))
    (hkeys : args1.map Prod.fst = args2.map Prod.fst) :
    (build_r_code template args1).isOk = (build_r_code template args2).isOk ∧
    (∀ msg, build_r_code template args1 = .error msg →
      (∃ name, msg = "KeyError: " ++ name ∧ findArg name args1 = Option.none) ∨
      msg = "ValueError: unterminated placeholder") := by
  constructor
  · unfold build_r_code
    cases hscan : scanTemplate Option.none template.data with
    | error e => rfl
    | ok segs =>
      dsimp only [Except.bind]
      rw [except_map_isOk, except_map_isOk, renderSegs_isOk_keys args1 args2 hkeys segs]
  · intro msg h
    unfold build_r_code at h
    cases hscan : scanTemplate Option.none template.data with
    | error e =>
      rw [hscan] at h
      dsimp only [Except.bind] at h
      injection h with h2
      exact Or.inr (h2 ▸ scanTemplate_error template.data Option.none e hscan)
    | ok segs =>
      rw [hscan] at h
      dsimp only [Except.bind] at h
      rw [except_map_eq_error] at h
      exact Or.inl (renderSegs_error args1 segs msg h)

/-- C4 — witness: the amended theorem applied to two same-key argument
lists of different value shapes. -/
theorem claim_C4_witness :
    (build_r_code "{x}" [("x", PyVal.list [1])]).isOk =
      (build_r_code "{x}" [("x", PyVal.pynone)]).isOk :=
  (claim_C4 "{x}" [("x", PyVal.list [1])] [("x", PyVal.pynone)] rfl).1

/-! ## Vector formatter, boolean formatter, builder determinism -/

/-- C7: for every numeric sequence, the vector formatter produces the
comma-separated vector-constructor literal whose evaluation (by the
reference evaluator of the emitted sublanguage) yields the same ordered
values, and the empty sequence yields exactly the zero-length vector text
`c()`. -/
theorem claim_C7 :
    (∀ values : List Int, parseRVector (format_r_vector values) = some values) ∧
    format_r_vector [] = "c()" :=
  ⟨parseRVector_format, rfl⟩

/-- C8: the boolean formatter `str(value).upper()` produces exactly the
two fixed uppercase tokens `TRUE` and `FALSE`, deterministically, and the
produced token is never quoted. -/
theorem claim_C8 : ∀ b : Bool,
    (pyBoolUpperTok b = if b then "TRUE" else "FALSE") ∧
    (Char.ofNat 34) ∉ (pyBoolUpperTok b).data := by
  intro b
  cases b <;> exact ⟨by decide, by decide⟩

/-- C9: the request builder is pure and deterministic — its result does
not depend on the ambient environment (clock, randomness), so two calls
on the identical tool call yield identical `(endpoint, payload)`. -/
theorem claim_C9 : ∀ (e₁ e₂ : Env) (t : ToolCall), buildAt e₁ t = buildAt e₂ t :=
  fun _ _ _ => rfl

/-! ## Plot code generation -/

set_option maxRecDepth 10000 in
/-- Rendering the scatter/line template substitutes the two vector
literals at the `x` and `y` placeholders. -/
theorem build_scatter_render (a b : List Int) :
    build_r_code scatterTemplate [("x", .list a), ("y", .list b)] =
      Except.ok ("x <- " ++ (format_r_vector a ++ ("\ny <- " ++ (format_r_vector b ++
        "\nlist(\n    x_range = range(x),\n    y_range = range(y),\n    x_summary = summary(x),\n    y_summary = summary(y),\n    correlation = cor(x, y)\n)")))) := by
  rfl

/-- C10: for a scatter or line plot whose optional second sequence is
`None` or the empty list, the generated code is the same as with `y`
absent, and it binds the `y` variable to the `x` values, so ranges,
summaries, and the correlation are computed of `x` against itself. -/
theorem claim_C10 (x : List Int) (y : Option (List Int)) (pt : String)
    (hpt : pt = "scatter" ∨ pt = "line") (hy : y = Option.none ∨ y = some []) :
    r_plot_code x y pt = r_plot_code x Option.none pt ∧
    r_plot_code x y pt =
      Except.ok ("x <- " ++ (format_r_vector x ++ ("\ny <- " ++ (format_r_vector x ++
        "\nlist(\n    x_range = range(x),\n    y_range = range(y),\n    x_summary = summary(x),\n    y_summary = summary(y),\n    correlation = cor(x, y)\n)")))) := by
  have hxy : pyOrList y x = x := by
    rcases hy with rfl | rfl
    · rfl
    · rfl
  rcases hpt with rfl | rfl
  · have h1 : r_plot_code x y "scatter" =
        build_r_code scatterTemplate [("x", .list x), ("y", .list (pyOrList y x))] := by
      rcases hy with rfl | rfl <;> rfl
    have h2 : r_plot_code x Option.none "scatter" =
        build_r_code scatterTemplate [("x", .list x), ("y", .list x)] := rfl
    rw [h1, h2, hxy]
    exact ⟨rfl, build_scatter_render x x⟩
  · have h1 : r_plot_code x y "line" =
        build_r_code scatterTemplate [("x", .list x), ("y", .list (pyOrList y x))] := by
      rcases hy with rfl | rfl <;> rfl
    have h2 : r_plot_code x Option.none "line" =
        build_r_code scatterTemplate [("x", .list x), ("y", .list x)] := rfl
    rw [h1, h2, hxy]
    exact ⟨rfl, build_scatter_render x x⟩

/-- C10 — witness: an empty `y` list behaves exactly like an absent
`y`. -/
theorem claim_C10_witness :
    r_plot_code [1, 2] (some []) "scatter" = r_plot_code [1, 2] Option.none "scatter" :=
  (claim_C10 [1, 2] (some []) "scatter" (Or.inl rfl) (Or.inr rfl)).1


/-! ## The one-sample t-test template -/

/-- Structural facts about any text of the shape
`"\n        x <- c(" ++ <numeral join> ++ S`: it has exactly one
occurrence of the binding text `<- c(`, contains `x <- c(`, contains any
token contained in `S`, and contains no text with a character missing
from all three parts. -/
theorem oneSample_text_props (x : List Int) (S tok : List Char)
    (hcnt : S.count '<' = 0)
    (htok : listContains tok S = true)
    (hy : 'y' ∉ S) (hp : 'p' ∉ S) :
    countOccs (("<- c(" : String).data)
      (("\n        x <- c(" : String).data ++ ((joinFloats x).data ++ S)) = 1 ∧
    listContains (("x <- c(" : String).data)
      (("\n        x <- c(" : String).data ++ ((joinFloats x).data ++ S)) = true ∧
    listContains tok
      (("\n        x <- c(" : String).data ++ ((joinFloats x).data ++ S)) = true ∧
    listContains (("y <-" : String).data)
      (("\n        x <- c(" : String).data ++ ((joinFloats x).data ++ S)) = false ∧
    listContains (("paired" : String).data)
      (("\n        x <- c(" : String).data ++ ((joinFloats x).data ++ S)) = false := by
  refine ⟨?_, ?_, ?_, ?_, ?_⟩
  · have hub := countOccs_le_count '<' (("- c(" : String).data)
      (("\n        x <- c(" : String).data ++ ((joinFloats x).data ++ S))
    have hc : (("\n        x <- c(" : String).data ++ ((joinFloats x).data ++ S)).count '<' = 1 := by
      rw [List.count_append, List.count_append,
        count_joinFloats_zero (by decide) x, hcnt]
      decide
    have hlb : 1 ≤ countOccs (("<- c(" : String).data)
        (("\n        x <- c(" : String).data ++ ((joinFloats x).data ++ S)) :=
      countOccs_pos (listContains_extend_right _ (by decide))
    have hpat : ("<- c(" : String).data = '<' :: ("- c(" : String).data := rfl
    rw [hpat] at hlb ⊢
    rw [hc] at hub
    omega
  · exact listContains_extend_right _ (by decide)
  · exact listContains_append_right _ (listContains_append_right _ htok)
  · cases hcc : listContains (("y <-" : String).data)
        (("\n        x <- c(" : String).data ++ ((joinFloats x).data ++ S)) with
    | false => rfl
    | true =>
      exfalso
      have hmem : 'y' ∈ ("\n        x <- c(" : String).data ++ ((joinFloats x).data ++ S) :=
        mem_of_listContains (by decide) hcc
      rcases List.mem_append.1 hmem with h1 | h1
      · exact absurd h1 (by decide)
      · rcases List.mem_append.1 h1 with h2 | h2
        · exact absurd h2 (not_mem_joinFloats (by decide) x)
        · exact hy h2
  · cases hcc : listContains (("paired" : String).data)
        (("\n        x <- c(" : String).data ++ ((joinFloats x).data ++ S)) with
    | false => rfl
    | true =>
      exfalso
      have hmem : 'p' ∈ ("\n        x <- c(" : String).data ++ ((joinFloats x).data ++ S) :=
        mem_of_listContains (by decide) hcc
      rcases List.mem_append.1 hmem with h1 | h1
      · exact absurd h1 (by decide)
      · rcases List.mem_append.1 h1 with h2 | h2
        · exact absurd h2 (not_mem_joinFloats (by decide) x)
        · exact hp h2

/-- C6: for every t-test call with the second sample absent and a valid
`alternative` value, the generated one-sample source text contains
exactly one sample binding (`x <- c(...)`, counted by occurrences of the
binding text `<- c(`), carries the alternative value as the quoted token
`alternative = "<value>"` inside the call, and has no `y` binding and no
`paired` argument. -/
theorem claim_C6 (x : List Int) (paired : Bool) (alt : String)
    (halt : alt = "two.sided" ∨ alt = "less" ∨ alt = "greater") :
    countOccsStr "<- c(" (r_t_test_code x Option.none paired alt) = 1 ∧
    strContainsStr "x <- c(" (r_t_test_code x Option.none paired alt) = true ∧
    strContainsStr ("alternative = \"" ++ alt ++ "\"")
      (r_t_test_code x Option.none paired alt) = true ∧
    strContainsStr "y <-" (r_t_test_code x Option.none paired alt) = false ∧
    strContainsStr "paired" (r_t_test_code x Option.none paired alt) = false := by
  have hdata : ∀ a : String, (r_t_test_code x Option.none paired a).data =
      ("\n        x <- c(" : String).data ++ ((joinFloats x).data ++
        ((")\n        t.test(x, alternative = \"" : String).data ++
          (a.data ++ ("\")\n        " : String).data))) := by
    intro a
    simp [r_t_test_code, String.data_append]
  rcases halt with rfl | rfl | rfl <;>
    simpa [countOccsStr, strContainsStr, hdata] using
      oneSample_text_props x _ _ (by decide) (by decide) (by decide) (by decide)

/-- C6 — witness: the one-sample t-test text for `x=[1,2,3]`,
`alternative="less"` has exactly one sample binding. -/
theorem claim_C6_witness :
    countOccsStr "<- c(" (r_t_test_code [1, 2, 3] Option.none false "less") = 1 :=
  (claim_C6 [1, 2, 3] false "less" (Or.inr (Or.inl rfl))).1

end RMcp
